import Mathlib

/-!
Shallow embedding of the order-lifecycle core of src/main.py (tinkoff_api).

Modelling conventions:
- Python floats are modelled as rationals.  The field operations of the
  embedded code are spelled qadd, qsub, qmul, qdiv, qabs: definitionally
  transparent implementations of +, -, *, /, abs on the rationals
  (the bridge lemmas qadd_eq, qsub_eq, qmul_eq, qdiv_eq, qabs_eq prove
  they agree with the library operations), so that every function of the
  embedding evaluates on concrete inputs by kernel reduction.
- Python round(x, n) is round_to n: scale by 10 ^ n, round to the nearest
  integer with ties to even (the banker rounding Python applies), scale
  back.
- Python exceptions are modelled explicitly as error values (PyError); a
  function that can raise returns an Except, and a loop that can raise
  returns the list of gateway actions issued before the raise together
  with an optional error.
- The brokerage gateway is an oracle environment (MarketEnv): the
  orderbook endpoint answers with a payload or a non-200 status code, the
  search-by-figi endpoint with an optional instrument record.
- Order placements and cancellations are recorded as Action values in the
  order the corresponding HTTP calls are issued; the response status of a
  placement influences none of the code paths embedded here, so it is not
  tracked.
-/

namespace TinkoffApi

/-- Transparent addition on the rationals. -/
def qadd (x y : ℚ) : ℚ :=
  Rat.divInt (x.num * (y.den : ℤ) + y.num * (x.den : ℤ)) ((x.den : ℤ) * (y.den : ℤ))

/-- Transparent subtraction on the rationals. -/
def qsub (x y : ℚ) : ℚ :=
  Rat.divInt (x.num * (y.den : ℤ) - y.num * (x.den : ℤ)) ((x.den : ℤ) * (y.den : ℤ))

/-- Transparent multiplication on the rationals. -/
def qmul (x y : ℚ) : ℚ :=
  Rat.divInt (x.num * y.num) ((x.den : ℤ) * (y.den : ℤ))

/-- Transparent division on the rationals (divInt sends a zero denominator
to 0, so qdiv x 0 = 0 = x / 0, matching the library convention; the
embedded code never reaches a division whose divisor is zero, see
CompanyData.get_income). -/
def qdiv (x y : ℚ) : ℚ :=
  Rat.divInt (x.num * (y.den : ℤ)) ((x.den : ℤ) * y.num)

/-- Transparent absolute value on the rationals. -/
def qabs (x : ℚ) : ℚ :=
  Rat.divInt |x.num| (x.den : ℤ)

/-- Transparent embedding of an integer into the rationals. -/
def qint (n : ℤ) : ℚ :=
  Rat.divInt n 1

/-- Rounding of a rational to the nearest integer, ties to even: the
banker rounding Python round applies. -/
def round_rat (x : ℚ) : ℤ :=
  let f : ℤ := Int.fdiv x.num x.den
  let r2 : ℤ := 2 * (x.num - f * x.den)
  if r2 < (x.den : ℤ) then f
  else if (x.den : ℤ) < r2 then f + 1
  else if f % 2 = 0 then f else f + 1

/-- round(x, n) of Python: scale by 10 ^ n, round to the nearest integer
(ties to even), scale back. -/
def round_to (n : ℕ) (x : ℚ) : ℚ :=
  qdiv (qint (round_rat (qmul x (qint ((10 : ℤ) ^ n))))) (qint ((10 : ℤ) ^ n))

/-- round_float of src/main.py lines 29-30: rounding to 3 decimal places. -/
def round_float (x : ℚ) : ℚ :=
  round_to 3 x

/-- float_eq of src/main.py lines 95-96: equality of the 3-decimal roundings. -/
def float_eq (x y : ℚ) : Bool :=
  decide (round_to 3 x = round_to 3 y)

/-- Currencies the screener distinguishes: rub, usd, and any other currency
(eur stands for the whole rejected remainder of the tinvest Currency enum). -/
inductive Currency
  | rub
  | usd
  | eur
  deriving DecidableEq, Repr

/-- OperationType of tinvest.schemas as used by src/main.py: buy or sell. -/
inductive OperationType
  | buy
  | sell
  deriving DecidableEq, Repr

/-- OperationStatus of tinvest.schemas as tested in check_done_orders. -/
inductive OperationStatus
  | done
  | decline
  | progress
  deriving DecidableEq, Repr

/-- One level of the orderbook: OrderResponse(quantity, price) of tinvest. -/
structure OrderResponse where
  quantity : ℚ
  price : ℚ
  deriving DecidableEq, Repr

instance : Inhabited OrderResponse := ⟨⟨0, 0⟩⟩

/-- Python exceptions that the embedded code can raise. -/
inductive PyError
  | exceptionStatus (code : ℕ)
  | attributeError
  | zeroDivisionError
  | cantUpdateOrders
  | cantGetOperations
  deriving DecidableEq, Repr

instance {ε α : Type} [DecidableEq ε] [DecidableEq α] : DecidableEq (Except ε α) := fun x y =>
  match x, y with
  | .error e, .error f => decidable_of_iff (e = f) (by simp)
  | .error e, .ok b => isFalse (fun h => Except.noConfusion h)
  | .ok a, .error f => isFalse (fun h => Except.noConfusion h)
  | .ok a, .ok b => decidable_of_iff (a = b) (by simp)

/-- CompanyData of src/main.py lines 38-50. -/
structure CompanyData where
  figi : String
  ticker : String
  ask : OrderResponse
  bid : OrderResponse
  currency : Currency
  last_price : ℚ
  minPriceIncrement : ℚ
  close_price : ℚ
  deriving DecidableEq, Repr

/-- get_bid of src/main.py lines 75-76. -/
def CompanyData.get_bid (c : CompanyData) : ℚ :=
  c.bid.price

/-- get_ask of src/main.py lines 78-79. -/
def CompanyData.get_ask (c : CompanyData) : ℚ :=
  c.ask.price

/-- get_delta of src/main.py lines 60-61: close_price - get_bid(). -/
def CompanyData.get_delta (c : CompanyData) : ℚ :=
  qsub c.close_price c.get_bid

/-- is_changed of src/main.py lines 52-55.  The model keeps last_price and
close_price always present, so the None branch of the source (a guard for
absent prices) has no counterpart here. -/
def CompanyData.is_changed (c : CompanyData) : Bool :=
  decide (round_float c.last_price ≠ round_float c.close_price)

/-- get_income of src/main.py lines 57-58: round_float(get_delta / last_price).
The Python float division raises ZeroDivisionError when last_price == 0,
rendered as none. -/
def CompanyData.get_income (c : CompanyData) : Option ℚ :=
  if c.last_price = 0 then none
  else some (round_float (qdiv c.get_delta c.last_price))

/-- Orderbook payload of the market_orderbook_get endpoint, the fields
src/main.py reads: asks, bids, last_price, close_price, min_price_increment. -/
structure Orderbook where
  asks : List OrderResponse
  bids : List OrderResponse
  last_price : ℚ
  close_price : ℚ
  min_price_increment : ℚ
  deriving DecidableEq, Repr

/-- Instrument record of market_search_by_figi_get (and of the instrument
lists market_stocks_get returns), the fields src/main.py reads. -/
structure MarketInstrument where
  figi : String
  ticker : String
  currency : Currency
  min_price_increment : ℚ
  deriving DecidableEq, Repr

/-- The market-data gateway as an oracle: the orderbook endpoint answers
with a payload or with a non-200 status code, the search endpoint with an
optional instrument record (none standing for a non-200 response). -/
structure MarketEnv where
  orderbook : String → Except ℕ Orderbook
  search : String → Option MarketInstrument

/-- The empty-side substitution of get_price, src/main.py lines 86-89: an
empty ask side becomes [(qty 0, price 0)], an empty bid side becomes
[(qty 0, price 10000)]. -/
def substitute_empty (ob : Orderbook) : Orderbook :=
  { ob with
    asks := if ob.asks.isEmpty then [⟨0, 0⟩] else ob.asks
    bids := if ob.bids.isEmpty then [⟨0, 10000⟩] else ob.bids }

/-- get_price of src/main.py lines 82-92: on status 200 return the payload
after the empty-side substitution, otherwise raise Exception(status_code). -/
def get_price (env : MarketEnv) (figi : String) : Except PyError Orderbook :=
  match env.orderbook figi with
  | .ok ob => .ok (substitute_empty ob)
  | .error code => .error (.exceptionStatus code)

/-- get_info_by_figi of src/main.py lines 99-106: on a 200 search response
build CompanyData from the search payload and get_price (whose exception
propagates); on a non-200 search response return None. -/
def get_info_by_figi (env : MarketEnv) (figi : String) :
    Except PyError (Option CompanyData) :=
  match env.search figi with
  | some info =>
    match get_price env figi with
    | .error e => .error e
    | .ok prices =>
      .ok (some ⟨figi, info.ticker, prices.asks.headI, prices.bids.headI,
        info.currency, prices.last_price, info.min_price_increment,
        prices.close_price⟩)
  | none => .ok none

/-- create_company of src/main.py lines 109-121, the rate-limit guard: the
list is the stream of successive get_price outcomes for this instrument.
A success builds the CompanyData; Exception("429") sleeps 60 time units and
retries on the rest of the stream; any other exception returns None.  The
result pairs the list of sleep durations with the outcome; an exhausted
stream (unreachable in an unbounded interaction) returns None. -/
def create_company (bond : MarketInstrument) :
    List (Except ℕ Orderbook) → List ℕ × Option CompanyData
  | [] => ([], none)
  | r :: rest =>
    match r with
    | .ok ob =>
      let stock_info := substitute_empty ob
      ([], some ⟨bond.figi, bond.ticker, stock_info.asks.headI,
        stock_info.bids.headI, bond.currency, stock_info.last_price,
        stock_info.min_price_increment, stock_info.close_price⟩)
    | .error code =>
      if code = 429 then
        let (sleeps, res) := create_company bond rest
        (60 :: sleeps, res)
      else ([], none)

/-- is_valid_company of src/main.py lines 155-165, the value and gate chain
after the currency normalization picked value.  The or-chain of line 163
short-circuits: when value > max_price the income is never computed, so a
zero last_price raises only past that first test. -/
def is_valid_value (company : CompanyData) (changed : Bool)
    (min_income max_price : ℚ) (value : ℚ) : Option Bool :=
  if max_price < value then some false
  else
    match company.get_income with
    | none => none
    | some inc =>
      if inc < min_income then some false
      else if changed = true ∧ company.is_changed = false then some false
      else some true

/-- is_valid_company of src/main.py lines 155-165: normalize last_price to
usd (divide by the usd_to_rub rate for a rub instrument, pass a usd price
through, reject any other currency), then apply the price-cap, income and
changed-today gates.  none models the ZeroDivisionError of get_income. -/
def is_valid_company (usd_to_rub : ℚ) (company : CompanyData) (changed : Bool)
    (min_income max_price : ℚ) : Option Bool :=
  match company.currency with
  | .rub => is_valid_value company changed min_income max_price
      (qdiv company.last_price usd_to_rub)
  | .usd => is_valid_value company changed min_income max_price
      company.last_price
  | _ => some false

/-- An outbound order-gateway call of the embedded code: a cancellation
(orders_cancel_post) or a limit-order placement (orders_limit_order_post,
carrying the LimitOrderRequest fields and the target figi). -/
inductive Action
  | cancel (order_id : String)
  | newOrder (figi : String) (price : ℚ) (lots : ℕ) (operation : OperationType)
  deriving DecidableEq, Repr

/-- The limit price create_limit_order computes, src/main.py lines 183-186:
one tick above the best bid for a buy, one tick below the best ask for a
sell. -/
def limit_price (company : CompanyData) : OperationType → ℚ
  | .buy => qadd company.get_bid company.minPriceIncrement
  | .sell => qsub company.get_ask company.minPriceIncrement

/-- create_order of src/main.py lines 168-179: the LimitOrderRequest is
built with price rounded to 2 decimal places and posted to the figi of the
company.  The embedded value is the placement call itself; the response
status changes no embedded behavior. -/
def create_order (company : CompanyData) (price : ℚ) (operation_type : OperationType)
    (lots : ℕ) : Action :=
  Action.newOrder company.figi (round_to 2 price) lots operation_type

/-- create_limit_order of src/main.py lines 182-190.  Its confirmation
print evaluates company.get_income(), so a zero last_price raises
ZeroDivisionError before anything is posted; otherwise the order is posted
at limit_price via create_order.  The source defaults lots to 1; every
caller embedded here uses that default. -/
def create_limit_order (company : CompanyData) (operation_type : OperationType)
    (lots : ℕ) : Except PyError Action :=
  match company.get_income with
  | none => .error .zeroDivisionError
  | some _ => .ok (create_order company (limit_price company operation_type)
      operation_type lots)

/-- One open order of the orders_get payload, the fields src/main.py reads
(requested_lots is carried only to state that it is never read). -/
structure OpenOrder where
  figi : String
  operation : OperationType
  price : ℚ
  order_id : String
  requested_lots : ℕ
  deriving DecidableEq, Repr

/-- The body of the reconciliation loop for one open order, src/main.py
lines 212-221: rebuild the company (an AttributeError models the source
calling methods on the None that get_info_by_figi returns after a failed
search), test the resting price against the raw best bid (buy) or best ask
(sell) at 3-decimal rounding, and on a mismatch evaluate the income (the
debug print of line 216 computes it before the cancel, so a zero
last_price raises here), cancel, and re-place via create_limit_order only
if the income clears min_ratio (absolute income for a sell).  The returned
list holds the gateway calls issued for this order. -/
def update_one (min_ratio : ℚ) (env : MarketEnv) (order : OpenOrder) :
    Except PyError (List Action) :=
  match get_info_by_figi env order.figi with
  | .error e => .error e
  | .ok none => .error .attributeError
  | .ok (some company) =>
    if (order.operation = .buy ∧ float_eq company.get_bid order.price = false) ∨
        (order.operation = .sell ∧ float_eq company.get_ask order.price = false) then
      match company.get_income with
      | none => .error .zeroDivisionError
      | some income =>
        if (income > min_ratio ∧ order.operation = .buy) ∨
            (qabs income > min_ratio ∧ order.operation = .sell) then
          match create_limit_order company order.operation 1 with
          | .error e => .error e
          | .ok act => .ok [Action.cancel order.order_id, act]
        else .ok [Action.cancel order.order_id]
    else .ok []

/-- The for loop of update_active_orders over the open orders, src/main.py
lines 212-221: orders are processed in sequence; an exception aborts the
remaining iterations.  The result pairs the actions issued before the
abort with the optional exception. -/
def update_orders (min_ratio : ℚ) (env : MarketEnv) :
    List OpenOrder → List Action × Option PyError
  | [] => ([], none)
  | o :: rest =>
    match update_one min_ratio env o with
    | .error e => ([], some e)
    | .ok acts =>
      let (more, err) := update_orders min_ratio env rest
      (acts ++ more, err)

/-- update_active_orders of src/main.py lines 207-223: on a 200 orders_get
response run the loop over the open orders; otherwise raise. -/
def update_active_orders (min_ratio : ℚ) (env : MarketEnv)
    (orders_response : Option (List OpenOrder)) : List Action × Option PyError :=
  match orders_response with
  | some orders_list => update_orders min_ratio env orders_list
  | none => ([], some .cantUpdateOrders)

/-- The open-orders set the gateway holds after a pass that issued the
given actions: orders whose id was cancelled are gone, each placement is
resting as a fresh open order (the gateway-assigned id is rendered as
figi ++ "-new"; no embedded decision reads it before the next pass
re-reads the set). -/
def apply_actions (orders : List OpenOrder) (acts : List Action) : List OpenOrder :=
  orders.filter (fun o => !decide (Action.cancel o.order_id ∈ acts)) ++
    acts.filterMap (fun a =>
      match a with
      | .newOrder figi price lots op => some ⟨figi, op, price, figi ++ "-new", lots⟩
      | .cancel _ => none)

/-- One trade-history entry of the operations_get payload, the fields
src/main.py reads.  operation_type is kept to the buy/sell values of the
tinvest OperationType enum the source compares against. -/
structure Operation where
  figi : String
  operation_type : OperationType
  status : OperationStatus
  deriving DecidableEq, Repr

/-- The side flip of src/main.py lines 270-273: buy becomes sell and sell
becomes buy. -/
def opposite : OperationType → OperationType
  | .buy => .sell
  | .sell => .buy

/-- The for loop of check_done_orders over the trade-history entries,
src/main.py lines 266-277: a done entry rebuilds the company by figi (the
AttributeError models create_limit_order receiving the None of a failed
search) and posts the opposite-side order via create_limit_order with the
default single lot; other entries are only logged.  An exception aborts
the remaining iterations; the result pairs the placements issued before
the abort with the optional exception. -/
def check_done_list (env : MarketEnv) :
    List Operation → List Action × Option PyError
  | [] => ([], none)
  | op :: rest =>
    if op.status = .done then
      match get_info_by_figi env op.figi with
      | .error e => ([], some e)
      | .ok none => ([], some .attributeError)
      | .ok (some cmp_info) =>
        match create_limit_order cmp_info (opposite op.operation_type) 1 with
        | .error e => ([], some e)
        | .ok act =>
          let (more, err) := check_done_list env rest
          (act :: more, err)
    else check_done_list env rest

/-- check_done_orders of src/main.py lines 256-279: on a 200
operations_get response run the loop over the entries; otherwise raise. -/
def check_done_orders (env : MarketEnv)
    (operations_response : Option (List Operation)) : List Action × Option PyError :=
  match operations_response with
  | some operation_list => check_done_list env operation_list
  | none => ([], some .cantGetOperations)

/-- Modelled from the spec, section 4.3: the currently correct price of an
order, best_bid_price + tick_size for a buy and best_ask_price - tick_size
for a sell.  Stated for comparison with the resting-price test the source
actually performs in update_active_orders. -/
def spec_correct_price (company : CompanyData) : OperationType → ℚ
  | .buy => qadd company.get_bid company.minPriceIncrement
  | .sell => qsub company.get_ask company.minPriceIncrement

/-- Every placement in the list requests exactly one lot. -/
def lots_are_one (acts : List Action) : Prop :=
  ∀ figi price lots op, Action.newOrder figi price lots op ∈ acts → lots = 1

/-! Concrete market data used by the counterexamples and witnesses below.
All prices are spelled with Rat.divInt so that every statement evaluates
by kernel reduction. -/

/-- Orderbook for instrument F1: best ask 200, best bid 100, last price
100, close 103, tick one half. -/
def obC1 : Orderbook := ⟨[⟨1, 200⟩], [⟨1, 100⟩], 100, 103, Rat.divInt 1 2⟩

def instC1 : MarketInstrument := ⟨"F1", "T1", .usd, Rat.divInt 1 2⟩

def envC1 : MarketEnv where
  orderbook := fun figi => if figi = "F1" then .ok obC1 else .error 404
  search := fun figi => if figi = "F1" then some instC1 else none

/-- The CompanyData the reconciliation loop rebuilds for F1. -/
def cC1 : CompanyData :=
  ⟨"F1", "T1", ⟨1, 200⟩, ⟨1, 100⟩, .usd, 100, Rat.divInt 1 2, 103⟩

/-- An open buy order on F1 resting exactly at best_bid + tick = 100.5. -/
def oC1 : OpenOrder := ⟨"F1", .buy, Rat.divInt 201 2, "id1", 2⟩

/-- Orderbook for instrument G1: best bid 100; an open buy order resting
at 100 matches the raw best bid. -/
def obC1w : Orderbook := ⟨[⟨1, 200⟩], [⟨1, 100⟩], 100, 103, Rat.divInt 1 2⟩

def envC1w : MarketEnv where
  orderbook := fun figi => if figi = "G1" then .ok obC1w else .error 404
  search := fun figi =>
    if figi = "G1" then some ⟨"G1", "U1", .usd, Rat.divInt 1 2⟩ else none

def cC1w : CompanyData :=
  ⟨"G1", "U1", ⟨1, 200⟩, ⟨1, 100⟩, .usd, 100, Rat.divInt 1 2, 103⟩

def oC1w : OpenOrder := ⟨"G1", .buy, 100, "id1w", 1⟩

/-- Orderbook for instrument F2: best bid 101, last 100, close 103, tick
one half; the open buy order rests at 100, so the first pass cancels and
replaces it at 101.5. -/
def obC2 : Orderbook := ⟨[⟨1, 200⟩], [⟨1, 101⟩], 100, 103, Rat.divInt 1 2⟩

def envC2 : MarketEnv where
  orderbook := fun figi => if figi = "F2" then .ok obC2 else .error 404
  search := fun figi =>
    if figi = "F2" then some ⟨"F2", "T2", .usd, Rat.divInt 1 2⟩ else none

def ordersC2 : List OpenOrder := [⟨"F2", .buy, 100, "id2", 1⟩]

/-- Orderbook for instrument G2: the open buy order rests at the raw best
bid, so a pass is a no-op. -/
def obC2w : Orderbook := ⟨[⟨1, 200⟩], [⟨1, 100⟩], 100, 103, Rat.divInt 1 2⟩

def envC2w : MarketEnv where
  orderbook := fun figi => if figi = "G2" then .ok obC2w else .error 404
  search := fun figi =>
    if figi = "G2" then some ⟨"G2", "U2", .usd, Rat.divInt 1 2⟩ else none

def ordersC2w : List OpenOrder := [⟨"G2", .buy, 100, "id2w", 1⟩]

/-- Orderbook for instrument F3: best bid 101 against an order resting at
100 (drift), income round3(2/100) = 0.02 above a threshold of 0.01. -/
def obC3 : Orderbook := ⟨[⟨1, 200⟩], [⟨1, 101⟩], 100, 103, Rat.divInt 1 2⟩

def envC3 : MarketEnv where
  orderbook := fun figi => if figi = "F3" then .ok obC3 else .error 404
  search := fun figi =>
    if figi = "F3" then some ⟨"F3", "T3", .usd, Rat.divInt 1 2⟩ else none

def cC3 : CompanyData :=
  ⟨"F3", "T3", ⟨1, 200⟩, ⟨1, 101⟩, .usd, 100, Rat.divInt 1 2, 103⟩

def oC3 : OpenOrder := ⟨"F3", .buy, 100, "id3", 1⟩

/-- The screener example of the spec: a rub instrument priced 9100 with
rate 91 normalizes to exactly the 100-unit cap; bid 9000 and close 9100
give income round3(100 / 9100) = 0.011. -/
def cC4 : CompanyData :=
  ⟨"F4", "T4", ⟨1, 9500⟩, ⟨1, 9000⟩, .rub, 9100, 1, 9100⟩

/-- Pricer data of the spec examples: best bid 100, best ask 101, tick one
half. -/
def cC5 : CompanyData :=
  ⟨"F5", "T5", ⟨1, 101⟩, ⟨1, 100⟩, .usd, 100, Rat.divInt 1 2, 103⟩

/-- A company whose last_price is zero: evaluating its income divides by
zero. -/
def cC6 : CompanyData := ⟨"F6", "T6", ⟨1, 1⟩, ⟨1, 1⟩, .usd, 0, 1, 1⟩

/-- Orderbook for instrument B of the partial-failure cycle: the open
order rests at the raw best bid, so processing it alone is a no-op. -/
def obC7 : Orderbook := ⟨[⟨1, 200⟩], [⟨1, 100⟩], 100, 103, Rat.divInt 1 2⟩

/-- A market where the quote fetch for instrument A answers status 500
while instrument B is healthy. -/
def envC7 : MarketEnv where
  orderbook := fun figi => if figi = "B" then .ok obC7 else .error 500
  search := fun figi =>
    if figi = "A" then some ⟨"A", "TA", .usd, 1⟩
    else if figi = "B" then some ⟨"B", "TB", .usd, Rat.divInt 1 2⟩
    else none

def o7a : OpenOrder := ⟨"A", .buy, 100, "ida", 1⟩

def o7b : OpenOrder := ⟨"B", .buy, 100, "idb", 1⟩

def bondC8 : MarketInstrument := ⟨"F8", "T8", .usd, 1⟩

def obC8 : Orderbook := ⟨[⟨1, 10⟩], [⟨1, 9⟩], 10, 10, 1⟩

/-- The CompanyData create_company builds from obC8. -/
def cC8 : CompanyData := ⟨"F8", "T8", ⟨1, 10⟩, ⟨1, 9⟩, .usd, 10, 1, 10⟩

def obC9 : Orderbook := ⟨[⟨1, 101⟩], [⟨1, 100⟩], 100, 103, Rat.divInt 1 2⟩

def envC9 : MarketEnv where
  orderbook := fun figi => if figi = "F9" then .ok obC9 else .error 404
  search := fun figi =>
    if figi = "F9" then some ⟨"F9", "T9", .usd, Rat.divInt 1 2⟩ else none

def cC9 : CompanyData :=
  ⟨"F9", "T9", ⟨1, 101⟩, ⟨1, 100⟩, .usd, 100, Rat.divInt 1 2, 103⟩

/-- One completed buy and one still-running sell. -/
def opsC9 : List Operation := [⟨"F9", .buy, .done⟩, ⟨"F9", .sell, .progress⟩]

/-! The theorems: the bridge lemmas for the transparent field operations,
shared unfolding lemmas, and one theorem (with witness or counterexample)
per claim. -/

theorem qadd_eq (x y : ℚ) : qadd x y = x + y := by
  rw [qadd, Rat.divInt_eq_div]
  push_cast
  conv_rhs => rw [← Rat.num_div_den x, ← Rat.num_div_den y]
  rw [div_add_div _ _ (by exact_mod_cast x.den_nz) (by exact_mod_cast y.den_nz)]
  ring_nf

theorem qsub_eq (x y : ℚ) : qsub x y = x - y := by
  rw [qsub, Rat.divInt_eq_div]
  push_cast
  conv_rhs => rw [← Rat.num_div_den x, ← Rat.num_div_den y]
  rw [div_sub_div _ _ (by exact_mod_cast x.den_nz) (by exact_mod_cast y.den_nz)]
  ring_nf

theorem qmul_eq (x y : ℚ) : qmul x y = x * y := by
  rw [qmul, Rat.divInt_eq_div]
  push_cast
  conv_rhs => rw [← Rat.num_div_den x, ← Rat.num_div_den y]
  rw [div_mul_div_comm]

theorem qdiv_eq (x y : ℚ) : qdiv x y = x / y := by
  rcases eq_or_ne y 0 with hy | hy
  · subst hy
    simp [qdiv]
  · have hyn : (y.num : ℚ) ≠ 0 := by exact_mod_cast Rat.num_ne_zero.mpr hy
    have hxd : ((x.den : ℤ) : ℚ) ≠ 0 := by exact_mod_cast x.den_nz
    have hyd : ((y.den : ℤ) : ℚ) ≠ 0 := by exact_mod_cast y.den_nz
    rw [qdiv, Rat.divInt_eq_div]
    push_cast
    conv_rhs => rw [← Rat.num_div_den x, ← Rat.num_div_den y]
    rw [div_div_div_comm]
    push_cast at hxd hyd
    field_simp
    left
    ring

theorem qabs_eq (x : ℚ) : qabs x = |x| := by
  rcases le_or_lt 0 x with h | h
  · rw [abs_of_nonneg h, qabs, abs_of_nonneg (Rat.num_nonneg.mpr h), Rat.divInt_eq_div]
    exact_mod_cast Rat.num_div_den x
  · have hn : x.num < 0 := by
      rw [← not_le, Rat.num_nonneg]
      exact not_le.mpr h
    rw [abs_of_neg h, qabs, abs_of_neg hn, Rat.divInt_eq_div]
    push_cast
    rw [neg_div, Rat.num_div_den]

theorem qint_eq (n : ℤ) : qint n = (n : ℚ) := by
  rw [qint, Rat.divInt_eq_div]
  norm_num

/-- When the income of the company is computable, create_limit_order posts
exactly one order at limit_price rounded to 2 decimal places. -/
theorem create_limit_order_eq (c : CompanyData) (op : OperationType) (i : ℚ)
    (hi : c.get_income = some i) :
    create_limit_order c op 1 =
      .ok (Action.newOrder c.figi (round_to 2 (limit_price c op)) 1 op) := by
  simp [create_limit_order, create_order, hi]

/-- C1, amended: in a reconciliation cycle, an open order whose valuation
reads back successfully (and whose income is computable) is left untouched
(no cancel, no replace) if and only if its resting price equals the raw
best bid price (for a buy order) or the raw best ask price (for a sell
order), equality tested after rounding both prices to 3 decimal places;
when the prices differ, exactly one cancel is issued followed by at most
one replacement order.  The claim as stated compares against
best_bid + tick_size and best_ask - tick_size instead, which the code
refutes (see the counterexample). -/
theorem claim_C1 (min_ratio : ℚ) (env : MarketEnv) (o : OpenOrder) (c : CompanyData) (i : ℚ)
    (hc : get_info_by_figi env o.figi = .ok (some c))
    (hi : c.get_income = some i) :
    (update_one min_ratio env o = .ok [] ↔
      float_eq (match o.operation with
        | .buy => c.get_bid
        | .sell => c.get_ask) o.price = true) ∧
    (float_eq (match o.operation with
        | .buy => c.get_bid
        | .sell => c.get_ask) o.price = false →
      update_one min_ratio env o = .ok [Action.cancel o.order_id] ∨
      update_one min_ratio env o =
        .ok [Action.cancel o.order_id,
          Action.newOrder c.figi (round_to 2 (limit_price c o.operation)) 1 o.operation]) := by
  obtain ⟨figi, op, price, oid, lots⟩ := o
  simp only [update_one, hc]
  cases op
  case buy =>
    cases hb : float_eq c.get_bid price
    · simp only [hb]
      simp only [hi, create_limit_order_eq c .buy i hi]
      by_cases ht : i > min_ratio
      · simp [ht]
      · simp [ht]
    · simp [hb]
  case sell =>
    cases hb : float_eq c.get_ask price
    · simp only [hb]
      simp only [hi, create_limit_order_eq c .sell i hi]
      by_cases ht : qabs i > min_ratio
      · simp [ht]
      · simp [ht]
    · simp [hb]

/-- C1 counterexample: a buy order resting exactly at the section-4.3
correct price best_bid + tick_size = 100.5 (equal at 3-decimal rounding),
for which the claim prescribes the no-op transition, is nevertheless
cancelled and replaced, because update_active_orders compares the resting
price against the raw best bid of 100. -/
theorem claim_C1_counterexample :
    get_info_by_figi envC1 "F1" = .ok (some cC1) ∧
    float_eq (spec_correct_price cC1 .buy) oC1.price = true ∧
    update_one (Rat.divInt 1 100) envC1 oC1 =
      .ok [Action.cancel "id1", Action.newOrder "F1" (Rat.divInt 201 2) 1 .buy] := by
  decide

/-- C1 witness: a buy order resting exactly at the raw best bid is left
untouched by the reconciliation step. -/
theorem claim_C1_witness :
    float_eq cC1w.get_bid oC1w.price = true ∧
    update_one (Rat.divInt 1 100) envC1w oC1w = .ok [] := by
  refine ⟨by decide, ?_⟩
  exact (claim_C1 (Rat.divInt 1 100) envC1w oC1w cC1w (Rat.divInt 3 100)
    (by decide) (by decide)).1.mpr (by decide)

/-- A pass that issued no gateway actions leaves the open-orders set of
the account unchanged. -/
theorem apply_actions_nil (orders : List OpenOrder) : apply_actions orders [] = orders := by
  simp [apply_actions]

/-- C2, amended: running a second reconciliation pass immediately after a
first one, with identical market quotes for every instrument in both
passes, produces zero cancel actions and zero replacement orders in the
second pass, provided the first pass itself issued no cancel or
replacement actions.  Unconditional idempotence, as the claim states it,
is refuted by the counterexample: a replacement resting at
best_bid + tick_size no longer equals the raw best bid, so the next pass
under the same quotes cancels it again. -/
theorem claim_C2 (min_ratio : ℚ) (env : MarketEnv) (orders : List OpenOrder)
    (h : update_orders min_ratio env orders = ([], none)) :
    update_orders min_ratio env
      (apply_actions orders (update_orders min_ratio env orders).1) = ([], none) := by
  rw [h]
  rw [apply_actions_nil]
  exact h

/-- C2 counterexample: under identical quotes in both passes, the first
pass cancels and replaces the drifted order at 101.5, and the second pass,
far from producing zero actions, cancels the replacement and places yet
another order. -/
theorem claim_C2_counterexample :
    update_orders (Rat.divInt 1 100) envC2 ordersC2 =
      ([Action.cancel "id2", Action.newOrder "F2" (Rat.divInt 203 2) 1 .buy], none) ∧
    update_orders (Rat.divInt 1 100) envC2
        (apply_actions ordersC2 (update_orders (Rat.divInt 1 100) envC2 ordersC2).1) =
      ([Action.cancel "F2-new", Action.newOrder "F2" (Rat.divInt 203 2) 1 .buy], none) := by
  decide

/-- C2 witness: when the first pass issues no actions, the second pass
under the same quotes issues none either. -/
theorem claim_C2_witness :
    update_orders (Rat.divInt 1 100) envC2w ordersC2w = ([], none) ∧
    update_orders (Rat.divInt 1 100) envC2w
      (apply_actions ordersC2w (update_orders (Rat.divInt 1 100) envC2w ordersC2w).1) =
      ([], none) :=
  ⟨by decide, claim_C2 (Rat.divInt 1 100) envC2w ordersC2w (by decide)⟩

/-- C3: in the reconciliation loop, after an order whose price has drifted
is cancelled, a replacement order is submitted if and only if the
recomputed income clears the threshold, with the intentional buy/sell
asymmetry: income_ratio > min_ratio for a cancelled buy order and
|income_ratio| > min_ratio for a cancelled sell order; when the threshold
is not cleared, the cancel is the only action and no new order is
submitted for that instrument in that cycle. -/
theorem claim_C3 (min_ratio : ℚ) (env : MarketEnv) (o : OpenOrder) (c : CompanyData) (i : ℚ)
    (hc : get_info_by_figi env o.figi = .ok (some c))
    (hi : c.get_income = some i)
    (hdrift : (o.operation = .buy ∧ float_eq c.get_bid o.price = false) ∨
      (o.operation = .sell ∧ float_eq c.get_ask o.price = false)) :
    ((match o.operation with
        | .buy => i > min_ratio
        | .sell => |i| > min_ratio) →
      update_one min_ratio env o =
        .ok [Action.cancel o.order_id,
          Action.newOrder c.figi (round_to 2 (limit_price c o.operation)) 1 o.operation]) ∧
    (¬ (match o.operation with
        | .buy => i > min_ratio
        | .sell => |i| > min_ratio) →
      update_one min_ratio env o = .ok [Action.cancel o.order_id]) := by
  obtain ⟨figi, op, price, oid, lots⟩ := o
  simp only [update_one, hc]
  cases op
  case buy =>
    rcases hdrift with ⟨_, hb⟩ | ⟨hop, _⟩
    · simp only [hb]
      simp only [hi, create_limit_order_eq c .buy i hi]
      by_cases ht : i > min_ratio
      · simp [ht]
      · simp [ht]
    · exact absurd hop (by simp)
  case sell =>
    rcases hdrift with ⟨hop, _⟩ | ⟨_, hb⟩
    · exact absurd hop (by simp)
    · simp only [hb]
      simp only [hi, create_limit_order_eq c .sell i hi]
      by_cases ht : |i| > min_ratio
      · simp [ht, qabs_eq]
      · simp [ht, qabs_eq]

/-- C3 witness: a drifted buy order whose income 0.02 clears the 0.01
threshold is cancelled and replaced at the recomputed price. -/
theorem claim_C3_witness :
    update_one (Rat.divInt 1 100) envC3 oC3 =
      .ok [Action.cancel "id3",
        Action.newOrder cC3.figi (round_to 2 (limit_price cC3 .buy)) 1 .buy] :=
  (claim_C3 (Rat.divInt 1 100) envC3 oC3 cC3 (Rat.divInt 1 50)
    (by decide) (by decide) (Or.inl ⟨rfl, by decide⟩)).1
    (show Rat.divInt 1 100 < Rat.divInt 1 50 by decide)

/-- The gate chain of is_valid_company accepts exactly when the normalized
value does not exceed the cap, the income is at least the minimum, and the
changed-today gate passes. -/
theorem is_valid_value_some_true_iff (c : CompanyData) (changed : Bool)
    (min_income max_price value i : ℚ) (hi : c.get_income = some i) :
    is_valid_value c changed min_income max_price value = some true ↔
      (value ≤ max_price ∧ min_income ≤ i ∧ (changed = true → c.is_changed = true)) := by
  simp only [is_valid_value, hi]
  split_ifs with h1 h2 h3
  · simp [h1.not_le]
  · simp [h2.not_le]
  · simp [h3.1, h3.2]
  · simp only [not_lt] at h1 h2
    simp only [h1, h2, true_and]
    constructor
    · intro _ hch
      rcases h : c.is_changed with _ | _
      · exact absurd ⟨hch, h⟩ h3
      · rfl
    · intro _
      trivial

/-- C4: the screener accepts a valuation model if and only if all three
gates pass: last_price normalized to usd (divided by the configured rate
for a rub quote, passed through for a usd quote) does not exceed the price
cap, with a value exactly at the cap accepted; the derived income_ratio
(get_income) is at least min_income_ratio; and if the changed flag is set
then the model has changed today.  Any model quoted in a currency that is
neither rub nor usd is rejected. -/
theorem claim_C4 (usd_to_rub : ℚ) (c : CompanyData) (changed : Bool)
    (min_income max_price i : ℚ) (hi : c.get_income = some i) :
    (is_valid_company usd_to_rub c changed min_income max_price = some true ↔
      (((c.currency = .rub ∧ c.last_price / usd_to_rub ≤ max_price) ∨
        (c.currency = .usd ∧ c.last_price ≤ max_price)) ∧
        min_income ≤ i ∧ (changed = true → c.is_changed = true))) ∧
    (c.currency = .eur →
      is_valid_company usd_to_rub c changed min_income max_price = some false) := by
  cases hcur : c.currency
  case rub =>
    refine ⟨?_, fun he => by simp [hcur] at he⟩
    have hv := is_valid_value_some_true_iff c changed min_income max_price
      (qdiv c.last_price usd_to_rub) i hi
    simp only [is_valid_company, hcur]
    rw [hv, qdiv_eq]
    simp
  case usd =>
    refine ⟨?_, fun he => by simp [hcur] at he⟩
    have hv := is_valid_value_some_true_iff c changed min_income max_price
      c.last_price i hi
    simp only [is_valid_company, hcur]
    rw [hv]
    simp
  case eur =>
    refine ⟨?_, fun _ => by simp [is_valid_company, hcur]⟩
    simp only [is_valid_company, hcur]
    simp

/-- C4 witness, the boundary example of the spec: an instrument priced
9100 rub at rate 91 normalizes to exactly the 100-unit cap and is
accepted. -/
theorem claim_C4_witness :
    cC4.last_price / 91 = 100 ∧
    is_valid_company 91 cC4 false (Rat.divInt 1 100) 100 = some true := by
  constructor
  · rw [← qdiv_eq]
    decide
  · exact (claim_C4 91 cC4 false (Rat.divInt 1 100) 100 (Rat.divInt 11 1000)
      (by decide)).1.mpr
      ⟨Or.inl ⟨rfl, by rw [← qdiv_eq]; decide⟩, by decide, by simp⟩

/-- C5: for every valuation model whose income is computable, the order
pricer computes best_bid_price + tick_size for a buy order and
best_ask_price - tick_size for a sell order, and the price actually posted
to the order gateway is that value rounded to 2 decimal places. -/
theorem claim_C5 (c : CompanyData) (i : ℚ) (hi : c.get_income = some i) :
    create_limit_order c .buy 1 =
      .ok (Action.newOrder c.figi (round_to 2 (c.get_bid + c.minPriceIncrement)) 1 .buy) ∧
    create_limit_order c .sell 1 =
      .ok (Action.newOrder c.figi (round_to 2 (c.get_ask - c.minPriceIncrement)) 1 .sell) := by
  constructor
  · rw [create_limit_order_eq c .buy i hi]
    simp [limit_price, qadd_eq]
  · rw [create_limit_order_eq c .sell i hi]
    simp [limit_price, qsub_eq]

/-- C5 witness, the examples of the spec: a buy at best_bid 100 with tick
0.5 posts 100.5, and a sell at best_ask 101 with tick 0.5 posts 100.5. -/
theorem claim_C5_witness :
    create_limit_order cC5 .buy 1 =
      .ok (Action.newOrder "F5" (Rat.divInt 201 2) 1 .buy) ∧
    create_limit_order cC5 .sell 1 =
      .ok (Action.newOrder "F5" (Rat.divInt 201 2) 1 .sell) := by
  have h := claim_C5 cC5 (Rat.divInt 3 100) (by decide)
  constructor
  · rw [h.1, ← qadd_eq]
    decide
  · rw [h.2, ← qsub_eq]
    decide

/-- C6, exhibiting the code bug: a model whose last_price is zero is fed
to the screener, which evaluates get_income past the price-cap test and
divides by zero (the none outcome models the uncaught ZeroDivisionError),
instead of excluding the model from screening without an error as the
claim requires. -/
theorem claim_C6 :
    cC6.last_price = 0 ∧
    is_valid_company 91 cC6 false 0 100 = none := by
  decide

/-- C7, exhibiting the code bug: with two open orders of which the first
instrument answers status 500 to its quote fetch, the whole reconciliation
cycle aborts with the uncaught exception and issues no action at all, even
though the second instrument alone would have processed cleanly; the claim
requires the failing instrument to be skipped and every other instrument
still processed. -/
theorem claim_C7 :
    update_active_orders (Rat.divInt 1 100) envC7 (some [o7a, o7b]) =
      ([], some (.exceptionStatus 500)) ∧
    update_one (Rat.divInt 1 100) envC7 o7b = .ok [] := by
  decide

/-- C8: the rate-limit guard around create_company sleeps the fixed
60-time-unit cooldown once per throttling signal and retries the same
fetch, so a stream of n throttling responses followed by a success yields
exactly n cooldown sleeps of 60 and the successfully built company; any
non-throttling failure is not retried (the tail of the stream is never
consulted) and surfaces to the caller as the terminal None outcome. -/
theorem claim_C8 (bond : MarketInstrument) (n : ℕ) (ob : Orderbook)
    (rest : List (Except ℕ Orderbook)) (code : ℕ) (hc : code ≠ 429) :
    create_company bond (List.replicate n (.error 429) ++ .ok ob :: rest) =
      (List.replicate n 60,
        some ⟨bond.figi, bond.ticker, (substitute_empty ob).asks.headI,
          (substitute_empty ob).bids.headI, bond.currency,
          (substitute_empty ob).last_price, (substitute_empty ob).min_price_increment,
          (substitute_empty ob).close_price⟩) ∧
    create_company bond (.error code :: rest) = ([], none) := by
  constructor
  · induction n with
    | zero => simp [create_company]
    | succ k ih => simp [List.replicate_succ, create_company, ih]
  · simp [create_company, hc]

/-- C8 witness: a call throttled exactly twice and then succeeding causes
exactly two 60-unit cooldown sleeps and returns the built company; a 500
failure is terminal with no sleeps. -/
theorem claim_C8_witness :
    (500 : ℕ) ≠ 429 ∧
    create_company bondC8 (List.replicate 2 (.error 429) ++ .ok obC8 :: []) =
      ([60, 60], some cC8) ∧
    create_company bondC8 (.error 500 :: []) = ([], none) := by
  have h := claim_C8 bondC8 2 obC8 [] 500 (by decide)
  exact ⟨by decide, h.1, h.2⟩

/-- C9: the settlement responder submits exactly one mirror order for each
trade-history entry whose status is done - the opposite side at the
section-4.3 price, with no confirmation gate - and no order for any entry
whose status is not done, provided each done entry's valuation reads back
successfully with computable income. -/
theorem claim_C9 (env : MarketEnv) (ops : List Operation) (f : String → CompanyData)
    (hf : ∀ op ∈ ops, op.status = .done →
      get_info_by_figi env op.figi = .ok (some (f op.figi)))
    (hi : ∀ op ∈ ops, op.status = .done → ((f op.figi).get_income).isSome = true) :
    check_done_orders env (some ops) =
      ((ops.filter (fun op => op.status = .done)).map (fun op =>
        Action.newOrder (f op.figi).figi
          (round_to 2 (limit_price (f op.figi) (opposite op.operation_type))) 1
          (opposite op.operation_type)), none) := by
  simp only [check_done_orders]
  induction ops with
  | nil => simp [check_done_list]
  | cons op rest ih =>
    have hf0 := hf op (List.mem_cons_self op rest)
    have hi0 := hi op (List.mem_cons_self op rest)
    have ihr := ih (fun p hp => hf p (List.mem_cons_of_mem _ hp))
      (fun p hp => hi p (List.mem_cons_of_mem _ hp))
    by_cases hd : op.status = .done
    · obtain ⟨iv, hiv⟩ := Option.isSome_iff_exists.mp (hi0 hd)
      have hcl := create_limit_order_eq (f op.figi) (opposite op.operation_type) iv hiv
      simp only [check_done_list, hd, if_true, hf0 hd, hcl, ihr]
      simp [List.filter_cons, hd]
    · simp only [check_done_list, hd, if_false, ihr]
      simp [List.filter_cons, hd]

/-- C9 witness: of one completed buy and one still-running sell, exactly
one sell order at the section-4.3 sell price is submitted. -/
theorem claim_C9_witness :
    check_done_orders envC9 (some opsC9) =
      ([Action.newOrder "F9" (round_to 2 (limit_price cC9 .sell)) 1 .sell], none) := by
  have h := claim_C9 envC9 opsC9 (fun _ => cC9) (by decide) (by decide)
  simpa using h

/-- Every order create_limit_order posts carries the lots it was asked
for. -/
theorem create_limit_order_lots (c : CompanyData) (op : OperationType) (lots : ℕ)
    (act : Action) (h : create_limit_order c op lots = .ok act) :
    act = Action.newOrder c.figi (round_to 2 (limit_price c op)) lots op := by
  unfold create_limit_order at h
  split at h
  · exact absurd h (by simp)
  · rw [create_order] at h
    injection h with h'
    exact h'.symm

/-- Every placement issued for one order of the reconciliation loop
requests exactly one lot. -/
theorem update_one_lots (min_ratio : ℚ) (env : MarketEnv) (o : OpenOrder)
    (acts : List Action) (h : update_one min_ratio env o = .ok acts) :
    lots_are_one acts := by
  unfold update_one at h
  split at h
  · exact absurd h (by simp)
  · exact absurd h (by simp)
  · rename_i company _
    split at h
    · split at h
      · exact absurd h (by simp)
      · split at h
        · split at h
          · exact absurd h (by simp)
          · rename_i act hcl
            injection h with h'
            subst h'
            have hact := create_limit_order_lots company o.operation 1 act hcl
            subst hact
            intro figi p l oper hmem
            rcases List.mem_cons.mp hmem with h1 | h1
            · cases h1
            · rcases List.mem_cons.mp h1 with h2 | h2
              · cases h2
                rfl
              · exact absurd h2 (List.not_mem_nil _)
        · injection h with h'
          subst h'
          intro figi p l oper hmem
          rcases List.mem_cons.mp hmem with h1 | h1
          · cases h1
          · exact absurd h1 (List.not_mem_nil _)
    · injection h with h'
      subst h'
      intro figi p l oper hmem
      exact absurd hmem (List.not_mem_nil _)

/-- Every placement issued by a reconciliation pass requests exactly one
lot. -/
theorem update_orders_lots (min_ratio : ℚ) (env : MarketEnv) (orders : List OpenOrder) :
    lots_are_one (update_orders min_ratio env orders).1 := by
  induction orders with
  | nil =>
    intro figi p l oper hmem
    exact absurd hmem (List.not_mem_nil _)
  | cons o rest ih =>
    simp only [update_orders]
    cases hu : update_one min_ratio env o with
    | error e =>
      intro figi p l oper hmem
      exact absurd hmem (List.not_mem_nil _)
    | ok acts =>
      rcases hrest : update_orders min_ratio env rest with ⟨more, err⟩
      rw [hrest] at ih
      simp only [hrest]
      intro figi p l oper hmem
      rcases List.mem_append.mp hmem with hm | hm
      · exact update_one_lots min_ratio env o acts hu figi p l oper hm
      · exact ih figi p l oper hm

/-- Every placement issued by the settlement responder requests exactly
one lot. -/
theorem check_done_list_lots (env : MarketEnv) (ops : List Operation) :
    lots_are_one (check_done_list env ops).1 := by
  induction ops with
  | nil =>
    intro figi p l oper hmem
    exact absurd hmem (List.not_mem_nil _)
  | cons op rest ih =>
    intro figi p l oper hmem
    simp only [check_done_list] at hmem
    by_cases hd : op.status = .done
    · rw [if_pos hd] at hmem
      split at hmem
      · exact absurd hmem (List.not_mem_nil _)
      · exact absurd hmem (List.not_mem_nil _)
      · rename_i cmp_info _
        split at hmem
        · exact absurd hmem (List.not_mem_nil _)
        · rename_i act hcl
          have hact := create_limit_order_lots cmp_info (opposite op.operation_type) 1 act hcl
          subst hact
          rcases List.mem_cons.mp hmem with h1 | h1
          · cases h1
            rfl
          · exact ih figi p l oper h1
    · rw [if_neg hd] at hmem
      exact ih figi p l oper hmem

/-- C10: every order submitted by the reconciliation loop's
cancel-and-replace path and by the settlement responder's mirror-order
path has quantity exactly 1 lot, regardless of the quantity of the
cancelled open order or of the completed trade being mirrored. -/
theorem claim_C10 (min_ratio : ℚ) (env : MarketEnv) (orders : List OpenOrder)
    (env2 : MarketEnv) (ops : List Operation) :
    lots_are_one (update_orders min_ratio env orders).1 ∧
    lots_are_one (check_done_list env2 ops).1 :=
  ⟨update_orders_lots min_ratio env orders, check_done_list_lots env2 ops⟩

end TinkoffApi
